import Mathlib

/-!
Verification development for the vk-api graph visualization client
(src/main.js).  The JavaScript source is shallowly embedded: JS values that
participate in truthiness tests and strict equality are modelled by `JVal`,
API records by `Record`, the per-node `userData` object by `UserData`, the
global mutable state (nodes, lines, selectedNode, the info panel DOM element)
by `AppState`, and the async click handler by a pure state-transition
function.  Randomness is modelled as an input stream of real numbers in the
unit interval, and the floating-point math of node placement by real
arithmetic.
-/

namespace VkGraph

/-- Model of a JavaScript primitive value as it appears in API records:
undefined, null, a number, a string, or a boolean. -/
inductive JVal where
  | undef
  | null
  | num (n : Int)
  | str (s : String)
  | boolean (b : Bool)
deriving DecidableEq

/-- JavaScript truthiness: undefined, null, 0, the empty string and false
are falsy; everything else is truthy. -/
def truthy : JVal → Bool
  | .undef => false
  | .null => false
  | .num n => n != 0
  | .str s => s != ""
  | .boolean b => b

/-- JavaScript strict equality between primitive values: values of
different types are never equal, values of the same type compare by
payload. -/
def jeq : JVal → JVal → Bool
  | .undef, .undef => true
  | .null, .null => true
  | .num a, .num b => a == b
  | .str a, .str b => a == b
  | .boolean a, .boolean b => a == b
  | _, _ => false

/-- The JavaScript expression a OR b (the logical-or operator on values):
yields a when a is truthy, otherwise b.  Used at src/main.js:78 and
src/main.js:102 for the id fallback and at src/main.js:118 for the fetch
argument. -/
def jsOr (a b : JVal) : JVal := if truthy a then a else b

/-- An API record (a parsed JSON object) restricted to the fields the
program ever reads.  A field that is absent from the JSON object is
`JVal.undef`, exactly as reading a missing property yields undefined. -/
structure Record where
  user_id : JVal := .undef
  group_id : JVal := .undef
  id : JVal := .undef
  name : JVal := .undef
  sex : JVal := .undef
  home_town : JVal := .undef
  city : JVal := .undef
  subscribers_count : JVal := .undef
deriving DecidableEq

/-- The userData object attached to a sphere, restricted to the fields the
program ever reads.  The object spread copies every record field; `type`
and the kind-specific id are then overwritten. -/
structure UserData where
  type : String
  user_id : JVal
  group_id : JVal
  name : JVal
  sex : JVal
  home_town : JVal
  city : JVal
  subscribers_count : JVal
deriving DecidableEq

/-- userData built for a user record, src/main.js:75-82: the spread of the
record, type set to user, and user_id set to user.user_id OR user.id. -/
def mkUserData (user : Record) : UserData :=
  { type := "user"
    user_id := jsOr user.user_id user.id
    group_id := user.group_id
    name := user.name
    sex := user.sex
    home_town := user.home_town
    city := user.city
    subscribers_count := user.subscribers_count }

/-- userData built for a group record, src/main.js:102: the spread of the
record, type set to group, and group_id set to group.group_id OR group.id. -/
def mkGroupData (group : Record) : UserData :=
  { type := "group"
    user_id := group.user_id
    group_id := jsOr group.group_id group.id
    name := group.name
    sex := group.sex
    home_town := group.home_town
    city := group.city
    subscribers_count := group.subscribers_count }

/-- A relationship entry from the relationships array: an object carrying
an optional user_id and an optional group_id reference. -/
structure Rel where
  user_id : JVal := .undef
  group_id : JVal := .undef
deriving DecidableEq

/-- A graph node: the sphere mesh, reduced to the data the program logic
reads from it.  The position type is a parameter because none of the
selection or resolution logic inspects positions; it is instantiated with
the real 3D point type for the placement claims. -/
structure Node (P : Type) where
  userData : UserData
  position : P
deriving DecidableEq

/-- The match predicate of the find call at src/main.js:122-125: a node
matches a relationship entry when its user_id is truthy and strictly equal
to the entry user_id, or its group_id is truthy and strictly equal to the
entry group_id. -/
def matchesRel (rel : Rel) (ud : UserData) : Bool :=
  (truthy ud.user_id && jeq ud.user_id rel.user_id) ||
  (truthy ud.group_id && jeq ud.group_id rel.group_id)

/-- nodes.find at src/main.js:122: the first node of the registry matching
the entry, or none. -/
def findTarget {P : Type} (nds : List (Node P)) (rel : Rel) : Option (Node P) :=
  nds.find? (fun n => matchesRel rel n.userData)

/-- The forEach loop at src/main.js:121-136: starting from the cleared line
list, push one edge per entry whose target resolves, in entry order;
unresolved entries only log a warning. -/
def drawEdges {P : Type} (node : Node P) (nds : List (Node P)) (rels : List Rel) :
    List (Node P × Node P) :=
  rels.foldl
    (fun acc rel =>
      match findTarget nds rel with
      | some t => acc ++ [(node, t)]
      | none => acc)
    []

/-- The parsed body of a relationships fetch after logFetch: jnull for a
falsy body (in particular the null that logFetch returns on any failure),
or a truthy object whose relationships property is either an array or
absent. -/
inductive RelData where
  | jnull
  | obj (rels : Option (List Rel))
deriving DecidableEq

/-- The JS value of the expression at src/main.js:119, relationshipsData
QUESTION relationshipsData.relationships COLON empty-array: an array, or
undefined (`none`) when a truthy body has no relationships property. -/
def relationshipsValue : RelData → Option (List Rel)
  | .jnull => some []
  | .obj r => r

/-- logFetch, src/main.js:26-36: awaits fetch and json inside try/catch and
returns the parsed data, or null (here `none`) when either throws.  The
function itself never throws: its embedding is total. -/
def logFetch {α : Type} (raw : Except Unit α) : Option α :=
  match raw with
  | .ok data => some data
  | .error _ => none

/-- fetchNodes, src/main.js:38-45: two independent logFetch calls; each
falsy response (null from a failure) is replaced by the empty list by the
OR-fallback, independently of the other.  Total: never throws. -/
def fetchNodes (usersRaw groupsRaw : Except Unit (List Record)) :
    List Record × List Record :=
  let usersResponse := logFetch usersRaw
  let groupsResponse := logFetch groupsRaw
  (usersResponse.getD [], groupsResponse.getD [])

/-- fetchNodeRelationships, src/main.js:48-50: a single logFetch whose
failure surfaces as the null body. -/
def fetchNodeRelationships (raw : Except Unit RelData) : RelData :=
  match raw with
  | .ok d => d
  | .error _ => .jnull

/-- Nodes built for one record list by the forEach at src/main.js:60-85 or
src/main.js:87-105: one node per record in order, the node at running index
i taking the i-th sampled position. -/
def buildNodes {P : Type} (mk : Record → UserData) (pos : ℕ → P) :
    ℕ → List Record → List (Node P)
  | _, [] => []
  | i, r :: rs => { userData := mk r, position := pos i } :: buildNodes mk pos (i + 1) rs

/-- createGraph, src/main.js:52-106: if both collections are empty, warn
and build nothing; otherwise append one node per user record and then one
node per group record to the flat nodes array.  The i-th node created
overall receives position pos i. -/
def createGraph {P : Type} (pos : ℕ → P) (users groups : List Record) :
    List (Node P) :=
  if users.length = 0 ∧ groups.length = 0 then []
  else
    buildNodes mkUserData pos 0 users ++
      buildNodes mkGroupData pos users.length groups

/-- The mutable globals of src/main.js that the selection logic owns:
nodes (read-only after createGraph), lines, selectedNode, and the node-info
DOM element (modelled by the data it displays, or none when absent). -/
structure AppState (P : Type) where
  nodes : List (Node P)
  lines : List (Node P × Node P)
  selectedNode : Option (Node P)
  infoPanel : Option UserData
deriving DecidableEq

/-- The state right after createGraph: a node registry, no lines, no
selection, no info panel. -/
def initState {P : Type} (nds : List (Node P)) : AppState P :=
  { nodes := nds, lines := [], selectedNode := none, infoPanel := none }

/-- clearConnections, src/main.js:108-111: remove every line from the scene
and empty the list. -/
def clearConnections {P : Type} (st : AppState P) : AppState P :=
  { st with lines := [] }

/-- updateNodeInfoDisplay, src/main.js:141-162: create or reuse the
node-info element and fill it from the given data. -/
def updateNodeInfoDisplay {P : Type} (data : UserData) (st : AppState P) :
    AppState P :=
  { st with infoPanel := some data }

/-- clearSelection, src/main.js:164-172: only when a node is selected,
remove the info panel, clear the connections and reset the selection. -/
def clearSelection {P : Type} (st : AppState P) : AppState P :=
  match st.selectedNode with
  | some _ => { st with infoPanel := none, lines := [], selectedNode := none }
  | none => st

/-- displayNodeInfo, src/main.js:114-139, with the fetched relationship
body as input.  It first clears the connections; when the relationships
value is undefined (truthy body without a relationships array) the forEach
call throws a TypeError, modelled by `Except.error` carrying the state at
the throw point; otherwise it draws one edge per resolved entry and
updates the info panel. -/
def displayNodeInfo {P : Type} (node : Node P) (fetched : RelData)
    (st : AppState P) : Except (AppState P) (AppState P) :=
  let st1 := clearConnections st
  match relationshipsValue fetched with
  | none => .error st1
  | some rels =>
      let st2 := { st1 with lines := drawEdges node st1.nodes rels }
      .ok (updateNodeInfoDisplay node.userData st2)

/-- onDocumentClick, src/main.js:174-190, with the raycast hit and the
relationship fetch outcome as inputs.  On a hit: clearSelection, set the
selection, run displayNodeInfo (whose thrown state, if any, is the state
the program is left in).  On a miss: clearSelection.  The displayNodeInfo
call at src/main.js:186 is not awaited; this function is the sequential
projection in which the resolution completes within the click — the
event-loop semantics with overlapping fetches is modelled separately
below by asyncStep. -/
def onDocumentClick {P : Type} (st : AppState P) (hit : Option (Node P))
    (fetched : RelData) : AppState P :=
  match hit with
  | some n =>
      let st1 := clearSelection st
      let st2 := { st1 with selectedNode := some n }
      match displayNodeInfo n fetched st2 with
      | .ok s => s
      | .error s => s
  | none => clearSelection st

/-- The argument pair of the fetchNodeRelationships call issued for a node,
src/main.js:118: data.user_id OR data.group_id, and data.type. -/
def relRequest {P : Type} (n : Node P) : JVal × String :=
  (jsOr n.userData.user_id n.userData.group_id, n.userData.type)

/-- The relationship-fetch requests a click issues: exactly one on a hit,
none on a miss. -/
def clickRequests {P : Type} (hit : Option (Node P)) : List (JVal × String) :=
  match hit with
  | some n => [relRequest n]
  | none => []

/-- A sequence of click events (hit plus fetched body), folded through
onDocumentClick. -/
def run {P : Type} (st : AppState P)
    (evs : List (Option (Node P) × RelData)) : AppState P :=
  evs.foldl (fun s e => onDocumentClick s e.1 e.2) st

/-- A sequence of click events together with the relationship-fetch
requests they issue, in order. -/
def runClicks {P : Type} (st : AppState P)
    (evs : List (Option (Node P) × RelData)) :
    AppState P × List (JVal × String) :=
  evs.foldl (fun acc e => (onDocumentClick acc.1 e.1 e.2, acc.2 ++ clickRequests e.1))
    (st, [])

/-- The lines a completed displayNodeInfo call for a node leaves drawn:
none when the call throws, otherwise one per resolved entry. -/
def resolutionLines {P : Type} (n : Node P) (nds : List (Node P))
    (f : RelData) : List (Node P × Node P) :=
  match relationshipsValue f with
  | none => []
  | some rels => drawEdges n nds rels

/-- The program state under the event-loop semantics: the globals plus the
list of in-flight relationship fetches — the suspended displayNodeInfo
continuations, each carrying the node captured at click time — in issue
order. -/
structure AsyncState (P : Type) where
  app : AppState P
  pending : List (Node P)

/-- The state right after createGraph under the event-loop semantics: no
fetch in flight. -/
def asyncInit {P : Type} (nds : List (Node P)) : AsyncState P :=
  { app := initState nds, pending := [] }

/-- An event-loop step: a pointer click, or the completion of the i-th
in-flight relationship fetch with a given body. -/
inductive AEvent (P : Type) where
  | click (hit : Option (Node P))
  | resolve (i : ℕ) (f : RelData)

/-- The synchronous part of onDocumentClick: the call at src/main.js:186
is not awaited, so a click on node n runs clearSelection, sets the
selection, and runs displayNodeInfo only up to its await — that is,
clearConnections — leaving the fetch pending.  A miss runs
clearSelection. -/
def asyncClick {P : Type} (st : AsyncState P) (hit : Option (Node P)) :
    AsyncState P :=
  match hit with
  | some n =>
      { app := clearConnections
          { clearSelection st.app with selectedNode := some n },
        pending := st.pending ++ [n] }
  | none => { app := clearSelection st.app, pending := st.pending }

/-- The continuation of displayNodeInfo after its await, src/main.js:119-138,
run against the current globals whatever they are by then: with an
undefined relationships value the forEach call throws before mutating
anything; otherwise it pushes one edge per resolved entry onto the current
line list and fills the info panel from the captured node — regardless of
the current selection. -/
def resolveContinuation {P : Type} (n : Node P) (f : RelData)
    (app : AppState P) : AppState P :=
  match relationshipsValue f with
  | none => app
  | some rels =>
      { app with lines := app.lines ++ drawEdges n app.nodes rels,
                 infoPanel := some n.userData }

/-- Completion of the i-th pending fetch: run its continuation and retire
it; an index beyond the pending list is a no-op. -/
def asyncResolve {P : Type} (st : AsyncState P) (i : ℕ) (f : RelData) :
    AsyncState P :=
  match st.pending[i]? with
  | some n =>
      { app := resolveContinuation n f st.app, pending := st.pending.eraseIdx i }
  | none => st

/-- One event-loop step. -/
def asyncStep {P : Type} (st : AsyncState P) : AEvent P → AsyncState P
  | .click hit => asyncClick st hit
  | .resolve i f => asyncResolve st i f

/-- A sequence of event-loop steps. -/
def runAsync {P : Type} (st : AsyncState P) (evs : List (AEvent P)) :
    AsyncState P :=
  evs.foldl asyncStep st

/-- The sequential schedules: each pick resolves its relationship fetch
before the next pointer event arrives. -/
def seqEvents {P : Type} : List (Option (Node P) × RelData) → List (AEvent P)
  | [] => []
  | (some n, f) :: rest =>
      AEvent.click (some n) :: AEvent.resolve 0 f :: seqEvents rest
  | (none, _) :: rest => AEvent.click none :: seqEvents rest

/-- A 3D point with real coordinates, modelling the sphere position. -/
structure Vec3 where
  x : ℝ
  y : ℝ
  z : ℝ

/-- Math.cbrt on the unit interval, modelled by the real cube root via
rpow (the program only applies it to Math.random results). -/
noncomputable def mathCbrt (x : ℝ) : ℝ := x ^ ((1 : ℝ) / 3)

/-- The position computed at src/main.js:65-73 and src/main.js:92-100 from
three fresh Math.random draws u, v, w: distance 15 times the cube root of
u, angle theta of v times two pi, angle phi the arccosine of 2w - 1,
converted from spherical to Cartesian coordinates. -/
noncomputable def nodePosition (u v w : ℝ) : Vec3 :=
  let distance := 15 * mathCbrt u
  let theta := v * 2 * Real.pi
  let phi := Real.arccos (2 * w - 1)
  { x := distance * Real.sin phi * Real.cos theta
    y := distance * Real.sin phi * Real.sin theta
    z := distance * Real.cos phi }

/-- The position of the i-th node created overall, consuming the random
stream three values at a time in creation order. -/
noncomputable def samplePosition (rand : ℕ → ℝ) (i : ℕ) : Vec3 :=
  nodePosition (rand (3 * i)) (rand (3 * i + 1)) (rand (3 * i + 2))

/-- Euclidean distance of a point from the origin. -/
noncomputable def norm3 (p : Vec3) : ℝ :=
  Real.sqrt (p.x ^ 2 + p.y ^ 2 + p.z ^ 2)

/-- Modelled from the spec: the identity of a node, the unique key
distinguishing entities within a kind, user_id for users and group_id for
groups.  Used only to state spec-side properties against the code. -/
def identityOf (ud : UserData) : JVal :=
  if ud.type = "user" then ud.user_id else ud.group_id

/-! Helper lemmas about the embedded operations. -/

theorem drawEdges_eq_filterMap {P : Type} (node : Node P) (nds : List (Node P))
    (rels : List Rel) :
    drawEdges node nds rels
      = rels.filterMap (fun r => (findTarget nds r).map (fun t => (node, t))) := by
  suffices h : ∀ (rs : List Rel) (acc : List (Node P × Node P)),
      rs.foldl
          (fun acc rel =>
            match findTarget nds rel with
            | some t => acc ++ [(node, t)]
            | none => acc)
          acc
        = acc ++ rs.filterMap (fun r => (findTarget nds r).map (fun t => (node, t))) by
    simpa [drawEdges] using h rels []
  intro rs
  induction rs with
  | nil => intro acc; simp
  | cons r rs ih =>
    intro acc
    cases h : findTarget nds r <;> simp [List.filterMap_cons, h, ih]

theorem length_filterMap_countP {α β : Type} (f : α → Option β) (l : List α) :
    (l.filterMap f).length = l.countP (fun x => (f x).isSome) := by
  induction l with
  | nil => rfl
  | cons x xs ih =>
    cases h : f x <;> simp [List.filterMap_cons, h, List.countP_cons, ih]

theorem find?_eq_first {α : Type} (p : α → Bool) :
    ∀ (l : List α) (a : α), l.find? p = some a →
      ∃ l1 l2, l = l1 ++ a :: l2 ∧ (∀ b ∈ l1, p b = false) ∧ p a = true := by
  intro l
  induction l with
  | nil => intro a h; simp [List.find?] at h
  | cons x xs ih =>
    intro a h
    by_cases hp : p x = true
    · rw [List.find?_cons_of_pos _ hp] at h
      obtain rfl : x = a := by injection h
      exact ⟨[], xs, rfl, by simp, hp⟩
    · rw [List.find?_cons_of_neg _ (by simpa using hp)] at h
      obtain ⟨l1, l2, rfl, h1, h2⟩ := ih a h
      refine ⟨x :: l1, l2, rfl, ?_, h2⟩
      intro b hb
      rcases List.mem_cons.mp hb with rfl | hb
      · simpa using hp
      · exact h1 b hb

theorem buildNodes_length {P : Type} (mk : Record → UserData) (pos : ℕ → P) :
    ∀ (i : ℕ) (l : List Record), (buildNodes mk pos i l).length = l.length := by
  intro i l
  induction l generalizing i with
  | nil => rfl
  | cons r rs ih => simp [buildNodes, ih]

theorem buildNodes_map_userData {P : Type} (mk : Record → UserData) (pos : ℕ → P) :
    ∀ (i : ℕ) (l : List Record),
      (buildNodes mk pos i l).map Node.userData = l.map mk := by
  intro i l
  induction l generalizing i with
  | nil => rfl
  | cons r rs ih => simp [buildNodes, ih]

theorem buildNodes_userData_mem {P : Type} (mk : Record → UserData) (pos : ℕ → P) :
    ∀ (i : ℕ) (l : List Record) (nd : Node P), nd ∈ buildNodes mk pos i l →
      ∃ r ∈ l, nd.userData = mk r := by
  intro i l
  induction l generalizing i with
  | nil => intro nd h; simp [buildNodes] at h
  | cons r rs ih =>
    intro nd h
    rcases List.mem_cons.mp h with rfl | h
    · exact ⟨r, List.mem_cons_self r rs, rfl⟩
    · obtain ⟨r2, hr2, he⟩ := ih (i + 1) nd h
      exact ⟨r2, List.mem_cons_of_mem r hr2, he⟩

theorem buildNodes_position_mem {P : Type} (mk : Record → UserData) (pos : ℕ → P) :
    ∀ (i : ℕ) (l : List Record) (nd : Node P), nd ∈ buildNodes mk pos i l →
      ∃ j, nd.position = pos j := by
  intro i l
  induction l generalizing i with
  | nil => intro nd h; simp [buildNodes] at h
  | cons r rs ih =>
    intro nd h
    rcases List.mem_cons.mp h with rfl | h
    · exact ⟨i, rfl⟩
    · exact ih (i + 1) nd h

/-! Claim C2: resolution order, first-match semantics, and edge count. -/

/-- Concrete node whose stored identity is the falsy number 0: the record
carries user_id 0 and id 0, so the OR-fallback stores 0. -/
def zeroIdNode : Node Unit :=
  { userData := mkUserData { user_id := .num 0, id := .num 0 }, position := () }

/-- A relationship entry referencing user 0. -/
def zeroRel : Rel := { user_id := .num 0 }

/-- Concrete user node with the truthy identity 1, used by several
witnesses. -/
def sampleNode : Node Unit :=
  { userData := mkUserData { user_id := .num 1, id := .num 1 }, position := () }

/-- A relationship entry referencing user 1. -/
def sampleRel : Rel := { user_id := .num 1 }

/-- C2 counterexample: the claim says resolution picks the first known node
whose identity equals the entry reference, so with one known node of
identity 0 and one entry referencing 0 it predicts one drawn edge.  The
code requires the node field to be truthy, skips the entry, and draws zero
edges. -/
theorem resolution_by_identity_cex :
    jeq (identityOf zeroIdNode.userData) zeroRel.user_id = true ∧
    drawEdges zeroIdNode [zeroIdNode] [zeroRel] = [] := by decide

/-- C2 (amended): resolution processes entries in order and for each entry
picks the first known node matching the truthy-guarded predicate (a field
matches only when the node side is truthy and strictly equal); unmatched
entries are skipped, so the drawn edge count equals the number of entries
with some matching node, and every drawn edge starts at the selected
node. -/
theorem resolution_first_match {P : Type} (node : Node P) (nds : List (Node P))
    (rels : List Rel) :
    drawEdges node nds rels
        = rels.filterMap (fun r => (findTarget nds r).map (fun t => (node, t))) ∧
    (drawEdges node nds rels).length
        = rels.countP (fun r => nds.any (fun n => matchesRel r n.userData)) ∧
    (∀ r t, findTarget nds r = some t →
      ∃ l1 l2, nds = l1 ++ t :: l2 ∧
        (∀ b ∈ l1, matchesRel r b.userData = false) ∧
        matchesRel r t.userData = true) ∧
    (∀ e ∈ drawEdges node nds rels, e.1 = node) := by
  have hfm := drawEdges_eq_filterMap node nds rels
  refine ⟨hfm, ?_, ?_, ?_⟩
  · rw [hfm, length_filterMap_countP]
    apply List.countP_congr
    intro r _
    cases h : findTarget nds r with
    | none =>
      have h2 : ∀ x ∈ nds, matchesRel r x.userData = false := by
        simpa [findTarget] using h
      have h3 : (nds.any fun n => matchesRel r n.userData) = false := by
        rw [List.any_eq_false]
        intro x hx
        simp [h2 x hx]
      simp [h, h3]
    | some t =>
      have h' : nds.find? (fun n => matchesRel r n.userData) = some t := h
      have h4 := List.find?_some h'
      have h3 : (nds.any fun n => matchesRel r n.userData) = true := by
        rw [List.any_eq_true]
        exact ⟨t, List.mem_of_find?_eq_some h', h4⟩
      simp [h, h3]
  · intro r t h
    exact find?_eq_first _ nds t h
  · intro e he
    rw [hfm] at he
    obtain ⟨r, _, he2⟩ := List.mem_filterMap.mp he
    cases h : findTarget nds r with
    | none =>
      rw [h] at he2
      simp at he2
    | some t =>
      rw [h] at he2
      simp only [Option.map_some'] at he2
      cases he2
      rfl

/-- C2 witness: on a concrete one-node registry with one resolvable entry,
the drawn edges equal the filterMap form, and the first-match
characterization holds at the found target. -/
theorem resolution_first_match_witness :
    drawEdges sampleNode [sampleNode] [sampleRel]
        = List.filterMap (fun r => (findTarget [sampleNode] r).map (fun t => (sampleNode, t)))
            [sampleRel] ∧
    ∃ l1 l2, ([sampleNode] : List (Node Unit)) = l1 ++ sampleNode :: l2 ∧
      (∀ b ∈ l1, matchesRel sampleRel b.userData = false) ∧
      matchesRel sampleRel sampleNode.userData = true := by
  refine ⟨(resolution_first_match sampleNode [sampleNode] [sampleRel]).1, ?_⟩
  exact (resolution_first_match sampleNode [sampleNode] [sampleRel]).2.2.1
    sampleRel sampleNode (by decide)

/-! Claim C8: identity derivation and the id fallback. -/

/-- C8 counterexample: for the user record with user_id 0 and id 7 the
kind-specific field is present (not undefined), yet the stored identity is
7, the generic id, not the kind-specific value 0: the fallback fires on
any falsy value, not exactly on absence. -/
theorem identity_fallback_cex :
    ({ user_id := JVal.num 0, id := JVal.num 7 } : Record).user_id ≠ JVal.undef ∧
    (mkUserData { user_id := JVal.num 0, id := JVal.num 7 }).user_id = JVal.num 7 ∧
    (mkUserData { user_id := JVal.num 0, id := JVal.num 7 }).user_id
        ≠ ({ user_id := JVal.num 0, id := JVal.num 7 } : Record).user_id := by
  decide

/-- C8 (amended): the stored identity is the kind-specific field when that
field is truthy and otherwise the generic id field; in particular, when
the kind-specific field is absent (undefined) the identity is the generic
id. -/
theorem identity_fallback_on_falsy (u g : Record) :
    (mkUserData u).user_id = (if truthy u.user_id then u.user_id else u.id) ∧
    (mkGroupData g).group_id = (if truthy g.group_id then g.group_id else g.id) ∧
    (u.user_id = JVal.undef → (mkUserData u).user_id = u.id) ∧
    (g.group_id = JVal.undef → (mkGroupData g).group_id = g.id) := by
  refine ⟨rfl, rfl, ?_, ?_⟩ <;> intro h <;>
    simp [mkUserData, mkGroupData, jsOr, h, truthy]

/-- C8 witness: concrete records with no kind-specific field fall back to
the generic id. -/
theorem identity_fallback_on_falsy_witness :
    (mkUserData { id := JVal.num 3 }).user_id = JVal.num 3 ∧
    (mkGroupData { id := JVal.num 4 }).group_id = JVal.num 4 := by
  refine ⟨?_, ?_⟩
  · exact (identity_fallback_on_falsy { id := JVal.num 3 } { id := JVal.num 4 }).2.2.1 rfl
  · exact (identity_fallback_on_falsy { id := JVal.num 3 } { id := JVal.num 4 }).2.2.2 rfl

/-! Claim C10: falsy identities and the truthiness guard. -/

/-- Concrete user node whose stored identity is the falsy 0 but whose
spread record also carried a truthy group_id 7. -/
def spreadNode : Node Unit :=
  { userData := mkUserData { user_id := .num 0, id := .num 0, group_id := .num 7 },
    position := () }

/-- A relationship entry whose user reference 0 equals the falsy identity
of spreadNode and whose group reference 7 equals its spread group_id. -/
def spreadRel : Rel := { user_id := .num 0, group_id := .num 7 }

/-- C10 counterexample: the claim says a node with a falsy stored identity
is never returned as a relationship target.  spreadNode has the falsy
identity 0, the entry reference equals that identity, and resolution still
returns the node, because the user record spread a truthy group_id into
its userData and the predicate also matches on that field. -/
theorem falsy_identity_returned_cex :
    truthy (identityOf spreadNode.userData) = false ∧
    jeq spreadRel.user_id (identityOf spreadNode.userData) = true ∧
    findTarget [spreadNode] spreadRel = some spreadNode := by
  decide

/-- C10 (amended): a falsy field never contributes to a match: when the
user_id (resp. group_id) field of a node is falsy, the predicate reduces
to the test on the other field alone, and a node with both fields falsy
never matches any entry, hence is never returned by resolution. -/
theorem falsy_identity_never_matches (rel : Rel) (ud : UserData) :
    (truthy ud.user_id = false →
      matchesRel rel ud = (truthy ud.group_id && jeq ud.group_id rel.group_id)) ∧
    (truthy ud.group_id = false →
      matchesRel rel ud = (truthy ud.user_id && jeq ud.user_id rel.user_id)) ∧
    (truthy ud.user_id = false → truthy ud.group_id = false →
      matchesRel rel ud = false) := by
  refine ⟨?_, ?_, ?_⟩
  · intro h
    simp [matchesRel, h]
  · intro h
    simp [matchesRel, h]
  · intro h1 h2
    simp [matchesRel, h1, h2]

/-- C10 witness: the node with falsy identity 0 and no other reference
field matches no entry. -/
theorem falsy_identity_never_matches_witness :
    matchesRel zeroRel zeroIdNode.userData = false :=
  (falsy_identity_never_matches zeroRel zeroIdNode.userData).2.2
    (by decide) (by decide)

/-! Claim C4: relationship fetch failure paths in displayNodeInfo. -/

/-- C4 counterexample: a truthy relationship body without a relationships
array does not resolve to an empty edge list: the forEach call on
undefined throws, displayNodeInfo ends in the error outcome, and the info
panel update never runs.  The claim predicted the ok outcome with zero
edges. -/
theorem relationships_missing_list_throws_cex :
    displayNodeInfo sampleNode (RelData.obj none) (initState [sampleNode])
        = Except.error (initState [sampleNode]) ∧
    (displayNodeInfo sampleNode (RelData.obj none) (initState [sampleNode])).isOk
        = false := by
  constructor <;> rfl

/-- C4 (amended): when the fetched relationship body is null (which is
what fetchNodeRelationships yields on any failure), resolution succeeds
with zero drawn edges; but a truthy body without a relationship list makes
displayNodeInfo throw: zero edges remain drawn and the info panel is not
updated, yet the outcome is an error, not a normal empty resolution. -/
theorem relationship_failure_paths {P : Type} (nd : Node P) (st : AppState P) :
    displayNodeInfo nd RelData.jnull st
        = Except.ok { st with lines := [], infoPanel := some nd.userData } ∧
    displayNodeInfo nd (RelData.obj none) st
        = Except.error { st with lines := [] } ∧
    fetchNodeRelationships (Except.error ()) = RelData.jnull := by
  refine ⟨rfl, rfl, rfl⟩

/-! Claim C3: independent degradation of the two collection fetches. -/

/-- Node types produced for one record list. -/
theorem buildNodes_map_type {P : Type} (mk : Record → UserData) (pos : ℕ → P)
    (i : ℕ) (l : List Record) :
    (buildNodes mk pos i l).map (fun nd => nd.userData.type)
      = l.map (fun r => (mk r).type) := by
  have h := buildNodes_map_userData mk pos i l
  calc (buildNodes mk pos i l).map (fun nd => nd.userData.type)
      = ((buildNodes mk pos i l).map Node.userData).map (fun ud => ud.type) := by
        rw [List.map_map]; rfl
    _ = (l.map mk).map (fun ud => ud.type) := by rw [h]
    _ = l.map (fun r => (mk r).type) := by rw [List.map_map]; rfl

/-- C3: fetchNodes is total (it returns a pair of lists in every outcome,
so it never throws), each collection degrades to the empty list exactly
when its own fetch fails, independent of the other, and the graph built
from a half-failed result consists of the successful resource only. -/
theorem fetch_degrades_independently {P : Type} (pos : ℕ → P)
    (us gs : List Record) :
    fetchNodes (Except.error ()) (Except.ok gs) = ([], gs) ∧
    fetchNodes (Except.ok us) (Except.error ()) = (us, []) ∧
    fetchNodes (Except.ok us) (Except.ok gs) = (us, gs) ∧
    fetchNodes (Except.error ()) (Except.error ()) = ([], []) ∧
    (createGraph pos [] gs).map (fun nd => nd.userData.type)
        = gs.map (fun _ => "group") ∧
    (createGraph pos us []).map (fun nd => nd.userData.type)
        = us.map (fun _ => "user") := by
  refine ⟨rfl, rfl, rfl, rfl, ?_, ?_⟩
  · unfold createGraph
    by_cases h : gs.length = 0
    · rw [List.length_eq_zero] at h
      subst h
      simp
    · rw [if_neg (by simp [h])]
      simp only [buildNodes, List.nil_append]
      rw [buildNodes_map_type]
      rfl
  · unfold createGraph
    by_cases h : us.length = 0
    · rw [List.length_eq_zero] at h
      subst h
      simp
    · rw [if_neg (by simp [h])]
      simp only [buildNodes, List.append_nil]
      rw [buildNodes_map_type]
      rfl

/-! Claim C5: one node per record, flat registry, per-kind order. -/

/-- C5: createGraph produces exactly one node per input record and the
flat registry lists the user nodes in user input order followed by the
group nodes in group input order. -/
theorem createGraph_one_node_per_record {P : Type} (pos : ℕ → P)
    (users groups : List Record) :
    (createGraph pos users groups).length = users.length + groups.length ∧
    (createGraph pos users groups).map Node.userData
        = users.map mkUserData ++ groups.map mkGroupData := by
  unfold createGraph
  by_cases h : users.length = 0 ∧ groups.length = 0
  · obtain ⟨hu, hg⟩ := h
    rw [List.length_eq_zero] at hu hg
    subst hu
    subst hg
    simp
  · rw [if_neg h]
    constructor
    · rw [List.length_append, buildNodes_length, buildNodes_length]
    · rw [List.map_append, buildNodes_map_userData, buildNodes_map_userData]

/-! Claim C9: all user nodes precede all group nodes, and a reference
matching both kinds resolves to the user node. -/

/-- C9: the registry types are the user block followed by the group block,
and whenever some user node matches an entry, the resolved target is a
user node (the find scan reaches the user block first). -/
theorem users_precede_groups {P : Type} (pos : ℕ → P)
    (users groups : List Record) (rel : Rel) :
    (createGraph pos users groups).map (fun nd => nd.userData.type)
        = users.map (fun _ => "user") ++ groups.map (fun _ => "group") ∧
    ((∃ nd ∈ createGraph pos users groups,
        nd.userData.type = "user" ∧ matchesRel rel nd.userData = true) →
      ∀ t, findTarget (createGraph pos users groups) rel = some t →
        t.userData.type = "user") := by
  constructor
  · unfold createGraph
    by_cases h : users.length = 0 ∧ groups.length = 0
    · obtain ⟨hu, hg⟩ := h
      rw [List.length_eq_zero] at hu hg
      subst hu
      subst hg
      simp
    · rw [if_neg h, List.map_append, buildNodes_map_type, buildNodes_map_type]
      congr 1
  · intro hex t hfind
    by_cases h : users.length = 0 ∧ groups.length = 0
    · obtain ⟨nd, hmem, _⟩ := hex
      rw [createGraph, if_pos h] at hmem
      simp at hmem
    · set A := buildNodes (P := P) mkUserData pos 0 users with hA
      set B := buildNodes (P := P) mkGroupData pos users.length groups with hB
      have hsplit : createGraph pos users groups = A ++ B := by
        rw [createGraph, if_neg h]
      obtain ⟨nd, hmem, htype, hmatch⟩ := hex
      rw [hsplit] at hmem hfind
      have hA_user : ∀ x ∈ A, x.userData.type = "user" := by
        intro x hx
        obtain ⟨r, _, he⟩ := buildNodes_userData_mem mkUserData pos 0 users x hx
        rw [he]
        rfl
      have hndA : nd ∈ A := by
        rcases List.mem_append.mp hmem with hmA | hmB
        · exact hmA
        · obtain ⟨r, _, he⟩ := buildNodes_userData_mem mkGroupData pos
            users.length groups nd hmB
          have hg : nd.userData.type = "group" := by rw [he]; rfl
          rw [hg] at htype
          exact absurd htype (by decide)
      have hAfind : (A.find? fun n => matchesRel rel n.userData).isSome := by
        rw [List.find?_isSome]
        exact ⟨nd, hndA, hmatch⟩
      obtain ⟨a0, ha0⟩ := Option.isSome_iff_exists.mp hAfind
      have : findTarget (A ++ B) rel = some a0 := by
        unfold findTarget
        rw [List.find?_append, ha0]
        rfl
      rw [this] at hfind
      obtain rfl : a0 = t := by injection hfind
      exact hA_user a0 (List.mem_of_find?_eq_some ha0)

/-- Concrete user record of identity 5. -/
def wUser : Record := { user_id := JVal.num 5 }

/-- Concrete group record of identity 5, the same reference value as
wUser. -/
def wGroup : Record := { group_id := JVal.num 5 }

/-- A relationship entry whose reference value 5 matches both the user and
the group node. -/
def wRel : Rel := { user_id := JVal.num 5, group_id := JVal.num 5 }

/-- C9 witness: with one user and one group node of the same identity 5
and an entry carrying 5 for both kinds, resolution returns the user
node. -/
theorem users_precede_groups_witness :
    findTarget (createGraph (fun _ => ()) [wUser] [wGroup]) wRel
        = some { userData := mkUserData wUser, position := () } ∧
    (mkUserData wUser).type = "user" := by
  have hfind : findTarget (createGraph (fun _ => ()) [wUser] [wGroup]) wRel
      = some { userData := mkUserData wUser, position := () } := by decide
  refine ⟨hfind, ?_⟩
  exact (users_precede_groups (fun _ => ()) [wUser] [wGroup] wRel).2
    ⟨{ userData := mkUserData wUser, position := () }, by decide, by decide, by decide⟩
    _ hfind

/-! Selection state machine lemmas. -/

theorem clearSelection_of_some {P : Type} (st : AppState P) (m : Node P)
    (hs : st.selectedNode = some m) :
    clearSelection st
      = { st with infoPanel := none, lines := [], selectedNode := none } := by
  unfold clearSelection
  rw [hs]

theorem clearSelection_of_none {P : Type} (st : AppState P)
    (hs : st.selectedNode = none) :
    clearSelection st = st := by
  unfold clearSelection
  rw [hs]

theorem clearSelection_selectedNode {P : Type} (st : AppState P) :
    (clearSelection st).selectedNode = none := by
  cases hs : st.selectedNode with
  | none => rw [clearSelection_of_none st hs, hs]
  | some m => rw [clearSelection_of_some st m hs]

theorem clearSelection_nodes {P : Type} (st : AppState P) :
    (clearSelection st).nodes = st.nodes := by
  cases hs : st.selectedNode with
  | none => rw [clearSelection_of_none st hs]
  | some m => rw [clearSelection_of_some st m hs]

/-- A click that hits node n leaves: the unchanged registry, the lines of
the fresh resolution for n, the selection on n, and the panel filled from
n except when the resolution throws before reaching the panel update. -/
theorem onDocumentClick_some_eq {P : Type} (st : AppState P) (n : Node P)
    (f : RelData) :
    onDocumentClick st (some n) f
      = { nodes := st.nodes,
          lines := resolutionLines n st.nodes f,
          selectedNode := some n,
          infoPanel :=
            match relationshipsValue f with
            | none => (clearSelection st).infoPanel
            | some _ => some n.userData } := by
  unfold onDocumentClick displayNodeInfo clearConnections updateNodeInfoDisplay
    resolutionLines
  cases hv : relationshipsValue f with
  | none => simp [clearSelection_nodes]
  | some rels => simp [clearSelection_nodes]

theorem onDocumentClick_none_eq {P : Type} (st : AppState P) (f : RelData) :
    onDocumentClick st none f = clearSelection st := rfl

theorem onDocumentClick_selectedNode {P : Type} (st : AppState P)
    (hit : Option (Node P)) (f : RelData) :
    (onDocumentClick st hit f).selectedNode = hit := by
  cases hit with
  | none => exact clearSelection_selectedNode st
  | some n => rw [onDocumentClick_some_eq]

theorem onDocumentClick_nodes {P : Type} (st : AppState P)
    (hit : Option (Node P)) (f : RelData) :
    (onDocumentClick st hit f).nodes = st.nodes := by
  cases hit with
  | none => exact clearSelection_nodes st
  | some n => rw [onDocumentClick_some_eq]

/-- The selection invariant: the registry is fixed, an empty selection
owns no lines and no panel, and a non-empty selection owns exactly the
lines of some completed resolution for the selected node. -/
def Inv {P : Type} (nodes0 : List (Node P)) (st : AppState P) : Prop :=
  st.nodes = nodes0 ∧
  (st.selectedNode = none → st.lines = [] ∧ st.infoPanel = none) ∧
  (∀ n, st.selectedNode = some n → ∃ f, st.lines = resolutionLines n nodes0 f)

theorem inv_initState {P : Type} (nds : List (Node P)) : Inv nds (initState nds) :=
  ⟨rfl, fun _ => ⟨rfl, rfl⟩, fun n h => by simp [initState] at h⟩

theorem inv_click {P : Type} {nodes0 : List (Node P)} (st : AppState P)
    (hit : Option (Node P)) (f : RelData) (h : Inv nodes0 st) :
    Inv nodes0 (onDocumentClick st hit f) := by
  obtain ⟨hn, hnone, hsome⟩ := h
  cases hit with
  | none =>
    rw [onDocumentClick_none_eq]
    cases hs : st.selectedNode with
    | some m =>
      rw [clearSelection_of_some st m hs]
      exact ⟨hn, fun _ => ⟨rfl, rfl⟩, fun n hsel => by simp at hsel⟩
    | none =>
      rw [clearSelection_of_none st hs]
      exact ⟨hn, hnone, hsome⟩
  | some n =>
    rw [onDocumentClick_some_eq]
    refine ⟨hn, ?_, ?_⟩
    · intro hcontra
      simp at hcontra
    · intro m hm
      obtain rfl : n = m := by injection hm
      exact ⟨f, by rw [hn]⟩

theorem run_nil {P : Type} (st : AppState P) : run st [] = st := rfl

theorem run_cons {P : Type} (st : AppState P) (e : Option (Node P) × RelData)
    (evs : List (Option (Node P) × RelData)) :
    run st (e :: evs) = run (onDocumentClick st e.1 e.2) evs := rfl

theorem run_concat {P : Type} (st : AppState P)
    (l : List (Option (Node P) × RelData)) (e : Option (Node P) × RelData) :
    run st (l ++ [e]) = onDocumentClick (run st l) e.1 e.2 := by
  unfold run
  rw [List.foldl_append]
  rfl

theorem inv_run {P : Type} {nodes0 : List (Node P)} (st : AppState P)
    (evs : List (Option (Node P) × RelData)) (h : Inv nodes0 st) :
    Inv nodes0 (run st evs) := by
  induction evs generalizing st with
  | nil => exact h
  | cons e es ih =>
    rw [run_cons]
    exact ih _ (inv_click st e.1 e.2 h)

/-- Invariant of the sequential transition function: after any sequence of
completed clicks, an empty selection owns zero drawn edges and no info
panel, and a non-empty selection on n means the last event was a pick of n
and the drawn lines are exactly those of that most recent resolution for
n. -/
theorem run_selection_invariant {P : Type} (nodes0 : List (Node P))
    (evs : List (Option (Node P) × RelData)) :
    ((run (initState nodes0) evs).selectedNode = none →
      (run (initState nodes0) evs).lines = [] ∧
      (run (initState nodes0) evs).infoPanel = none) ∧
    (∀ n, (run (initState nodes0) evs).selectedNode = some n →
      ∃ f, evs.getLast? = some (some n, f) ∧
        (run (initState nodes0) evs).lines = resolutionLines n nodes0 f) := by
  have hinv : Inv nodes0 (run (initState nodes0) evs) :=
    inv_run _ evs (inv_initState nodes0)
  constructor
  · exact hinv.2.1
  · intro n hsel
    rcases List.eq_nil_or_concat evs with rfl | ⟨L, e, rfl⟩
    · rw [run_nil] at hsel
      simp [initState] at hsel
    · rw [List.concat_eq_append] at hsel ⊢
      rw [run_concat] at hsel ⊢
      have hhit : e.1 = some n := by
        rw [← onDocumentClick_selectedNode (run (initState nodes0) L) e.1 e.2]
        exact hsel
      have hnodes : (run (initState nodes0) L).nodes = nodes0 :=
        (inv_run _ L (inv_initState nodes0)).1
      refine ⟨e.2, ?_, ?_⟩
      · rw [List.getLast?_concat, ← hhit]
      · rw [hhit, onDocumentClick_some_eq, hnodes]

/-! Claim C1: the selection-state invariant under the event-loop
semantics. -/

/-- Running the suspended continuation right after its own click is the
synchronous onDocumentClick transition. -/
theorem resolveContinuation_click {P : Type} (app : AppState P) (n : Node P)
    (f : RelData) :
    resolveContinuation n f
        (clearConnections { clearSelection app with selectedNode := some n })
      = onDocumentClick app (some n) f := by
  cases hv : relationshipsValue f with
  | none =>
    simp [resolveContinuation, onDocumentClick, displayNodeInfo,
      clearConnections, hv]
  | some rels =>
    simp [resolveContinuation, onDocumentClick, displayNodeInfo,
      clearConnections, updateNodeInfoDisplay, hv]

/-- On sequential schedules the event-loop semantics coincides with the
synchronous transition function and leaves no fetch pending. -/
theorem runAsync_seq {P : Type} (app : AppState P)
    (evs : List (Option (Node P) × RelData)) :
    runAsync { app := app, pending := [] } (seqEvents evs)
      = { app := run app evs, pending := [] } := by
  induction evs generalizing app with
  | nil => rfl
  | cons e rest ih =>
    obtain ⟨hit, f⟩ := e
    cases hit with
    | none =>
      show runAsync { app := clearSelection app, pending := [] } (seqEvents rest)
          = { app := run app ((none, f) :: rest), pending := [] }
      rw [ih (clearSelection app), run_cons, onDocumentClick_none_eq]
    | some n =>
      show runAsync
          { app := resolveContinuation n f
              (clearConnections { clearSelection app with selectedNode := some n }),
            pending := [] } (seqEvents rest)
          = { app := run app ((some n, f) :: rest), pending := [] }
      rw [resolveContinuation_click, ih (onDocumentClick app (some n) f), run_cons]

/-- C1 counterexample: pick sampleNode (its relationship fetch still
pending), click empty space (clearSelection empties the selection), then
let the stale fetch resolve: its continuation draws the edge and creates
the info panel although no node is selected, and a further empty-space
click does not clean it up because clearSelection is guarded by the
now-null selectedNode.  The invariant claimed at every point is violated
at a reachable point of the event-loop semantics. -/
theorem selection_invariant_async_cex :
    (runAsync (asyncInit [sampleNode])
        [AEvent.click (some sampleNode), AEvent.click none,
          AEvent.resolve 0 (RelData.obj (some [sampleRel]))]).app.selectedNode
        = none ∧
    (runAsync (asyncInit [sampleNode])
        [AEvent.click (some sampleNode), AEvent.click none,
          AEvent.resolve 0 (RelData.obj (some [sampleRel]))]).app.lines
        = [(sampleNode, sampleNode)] ∧
    (runAsync (asyncInit [sampleNode])
        [AEvent.click (some sampleNode), AEvent.click none,
          AEvent.resolve 0 (RelData.obj (some [sampleRel]))]).app.infoPanel
        = some sampleNode.userData ∧
    (runAsync (asyncInit [sampleNode])
        [AEvent.click (some sampleNode), AEvent.click none,
          AEvent.resolve 0 (RelData.obj (some [sampleRel])),
          AEvent.click none]).app.lines
        = [(sampleNode, sampleNode)] := by
  decide

/-- C1 (amended): the invariant holds at every point of every sequential
schedule — each relationship fetch resolving before the next pointer
event: no fetch is left pending, an empty selection owns zero drawn edges
and no info panel, and a selection on n owns exactly the edges of the most
recent resolution for n, with nothing surviving from a previous selection.
Under interleaved schedules the code violates the invariant: a stale
continuation can draw edges and create the panel with the selection
already empty, as the counterexample shows. -/
theorem selection_invariant_sequential {P : Type} (nodes0 : List (Node P))
    (evs : List (Option (Node P) × RelData)) :
    (runAsync (asyncInit nodes0) (seqEvents evs)).pending = [] ∧
    ((runAsync (asyncInit nodes0) (seqEvents evs)).app.selectedNode = none →
      (runAsync (asyncInit nodes0) (seqEvents evs)).app.lines = [] ∧
      (runAsync (asyncInit nodes0) (seqEvents evs)).app.infoPanel = none) ∧
    (∀ n, (runAsync (asyncInit nodes0) (seqEvents evs)).app.selectedNode = some n →
      ∃ f, evs.getLast? = some (some n, f) ∧
        (runAsync (asyncInit nodes0) (seqEvents evs)).app.lines
          = resolutionLines n nodes0 f) := by
  have hs : runAsync (asyncInit nodes0) (seqEvents evs)
      = { app := run (initState nodes0) evs, pending := [] } :=
    runAsync_seq (initState nodes0) evs
  rw [hs]
  exact ⟨rfl, (run_selection_invariant nodes0 evs).1,
    (run_selection_invariant nodes0 evs).2⟩

/-- C1 witness: on the empty sequential schedule over an empty registry,
nothing is pending and the empty selection owns no lines and no panel. -/
theorem selection_invariant_sequential_witness :
    (runAsync (asyncInit ([] : List (Node Unit))) (seqEvents [])).app.lines = [] ∧
    (runAsync (asyncInit ([] : List (Node Unit))) (seqEvents [])).app.infoPanel
      = none :=
  (selection_invariant_sequential ([] : List (Node Unit)) []).2.1 rfl

/-! Claim C7: re-picking the selected node is a fresh selection. -/

/-- C7: re-picking the currently selected node issues a relationship fetch
on each pick (two picks, two requests, no caching), and given the same
fetched data the state after the second pick equals the state after the
first: in particular the drawn overlay is the same both times. -/
theorem repick_is_fresh_selection {P : Type} (st : AppState P) (n : Node P)
    (f : RelData) (h : st.selectedNode = some n) :
    (runClicks st [(some n, f), (some n, f)]).2 = [relRequest n, relRequest n] ∧
    onDocumentClick (onDocumentClick st (some n) f) (some n) f
        = onDocumentClick st (some n) f ∧
    (onDocumentClick (onDocumentClick st (some n) f) (some n) f).lines
        = (onDocumentClick st (some n) f).lines := by
  have hidem : onDocumentClick (onDocumentClick st (some n) f) (some n) f
      = onDocumentClick st (some n) f := by
    cases hv : relationshipsValue f with
    | none =>
      simp [onDocumentClick, displayNodeInfo, clearConnections,
        updateNodeInfoDisplay, clearSelection, h, hv, resolutionLines]
    | some rels =>
      simp [onDocumentClick, displayNodeInfo, clearConnections,
        updateNodeInfoDisplay, clearSelection, h, hv, resolutionLines]
  exact ⟨rfl, hidem, by rw [hidem]⟩

/-- A concrete state with sampleNode selected, for the C7 witness. -/
def selectedState : AppState Unit :=
  { nodes := [sampleNode], lines := [], selectedNode := some sampleNode,
    infoPanel := some sampleNode.userData }

/-- C7 witness: two consecutive picks of the already selected sampleNode
issue two identical relationship-fetch requests. -/
theorem repick_is_fresh_selection_witness :
    (runClicks selectedState
        [(some sampleNode, RelData.jnull), (some sampleNode, RelData.jnull)]).2
      = [relRequest sampleNode, relRequest sampleNode] :=
  (repick_is_fresh_selection selectedState sampleNode RelData.jnull rfl).1

/-! Claim C6: every sampled position lies in the closed ball of radius
15. -/

theorem createGraph_position_mem {P : Type} (pos : ℕ → P)
    (users groups : List Record) :
    ∀ nd ∈ createGraph pos users groups, ∃ j, nd.position = pos j := by
  intro nd h
  unfold createGraph at h
  by_cases hg : users.length = 0 ∧ groups.length = 0
  · rw [if_pos hg] at h
    simp at h
  · rw [if_neg hg] at h
    rcases List.mem_append.mp h with h1 | h1
    · exact buildNodes_position_mem _ _ _ _ _ h1
    · exact buildNodes_position_mem _ _ _ _ _ h1

/-- The distance from the origin of a sampled position is exactly the
sampled radius 15 times the cube root of the first draw: the
spherical-to-Cartesian transform preserves the radius. -/
theorem norm3_nodePosition (u v w : ℝ) (h0 : 0 ≤ u) :
    norm3 (nodePosition u v w) = 15 * mathCbrt u := by
  have hc0 : 0 ≤ mathCbrt u := Real.rpow_nonneg h0 _
  have hd : 0 ≤ 15 * mathCbrt u := by positivity
  have hθ := Real.sin_sq_add_cos_sq (v * 2 * Real.pi)
  have hφ := Real.sin_sq_add_cos_sq (Real.arccos (2 * w - 1))
  have key :
      (15 * mathCbrt u * Real.sin (Real.arccos (2 * w - 1))
          * Real.cos (v * 2 * Real.pi)) ^ 2
        + (15 * mathCbrt u * Real.sin (Real.arccos (2 * w - 1))
            * Real.sin (v * 2 * Real.pi)) ^ 2
        + (15 * mathCbrt u * Real.cos (Real.arccos (2 * w - 1))) ^ 2
      = (15 * mathCbrt u) ^ 2 := by
    linear_combination
      (15 * mathCbrt u) ^ 2 * Real.sin (Real.arccos (2 * w - 1)) ^ 2 * hθ
        + (15 * mathCbrt u) ^ 2 * hφ
  show Real.sqrt
      ((15 * mathCbrt u * Real.sin (Real.arccos (2 * w - 1))
          * Real.cos (v * 2 * Real.pi)) ^ 2
        + (15 * mathCbrt u * Real.sin (Real.arccos (2 * w - 1))
            * Real.sin (v * 2 * Real.pi)) ^ 2
        + (15 * mathCbrt u * Real.cos (Real.arccos (2 * w - 1))) ^ 2)
      = 15 * mathCbrt u
  rw [key]
  exact Real.sqrt_sq hd

/-- C6: when every random draw lies in the unit interval, every node the
graph builder produces sits at Euclidean distance at most 15 from the
origin, because its position is the spherical point of radius 15 times
the cube root of a unit-interval draw. -/
theorem createGraph_position_in_ball (users groups : List Record)
    (rand : ℕ → ℝ) (hr : ∀ i, 0 ≤ rand i ∧ rand i < 1) :
    ∀ nd ∈ createGraph (samplePosition rand) users groups,
      norm3 nd.position ≤ 15 := by
  intro nd hmem
  obtain ⟨j, hj⟩ :=
    createGraph_position_mem (samplePosition rand) users groups nd hmem
  rw [hj]
  show norm3 (nodePosition (rand (3 * j)) (rand (3 * j + 1)) (rand (3 * j + 2))) ≤ 15
  rw [norm3_nodePosition _ _ _ (hr (3 * j)).1]
  have h1 : mathCbrt (rand (3 * j)) ≤ 1 :=
    Real.rpow_le_one (hr (3 * j)).1 (hr (3 * j)).2.le (by norm_num)
  linarith [h1]

/-- C6 witness: the node built from one empty user record with the
constant random stream one half sits within distance 15 of the origin. -/
theorem createGraph_position_in_ball_witness :
    norm3 (samplePosition (fun _ => (1 : ℝ) / 2) 0) ≤ 15 := by
  have h := createGraph_position_in_ball [{}] [] (fun _ => (1 : ℝ) / 2)
    (fun _ => ⟨by norm_num, by norm_num⟩)
  refine h { userData := mkUserData {}, position := samplePosition (fun _ => (1 : ℝ) / 2) 0 } ?_
  show _ ∈ createGraph (samplePosition fun _ => (1 : ℝ) / 2) [{}] []
  simp [createGraph, buildNodes]

end VkGraph
